import Mathlib

/-!
Shallow embedding of the siiir_points library (src/lib.rs): generic point
types `Point2D<N>` and `Point3D<N>` with componentwise arithmetic derived by
derive_more, checked hypot-squared, bounds, conversions and display.

The numeric parameter `N` is a plain Lean type; the capabilities Rust takes
as trait bounds (`Add`, `Sub`, `Neg`, `AddAssign`, `SubAssign`, `Default`,
`CheckedMul`, `CheckedAdd`, `Bounded`, `Display`) are passed as explicit
function arguments, mirroring the per-operation bounds of the source.
Concrete fixed-width instantiations (i32, i8) are modelled as `Int` together
with range-checking operations.
-/

/-- `Point2D` from src/lib.rs: two named numeric fields x and y. -/
structure Point2D (N : Type) where
  x : N
  y : N
deriving DecidableEq, Repr

/-- `Point3D` from src/lib.rs: an embedded `Point2D` (field `xy`, the target
of Deref/DerefMut) plus a third coordinate z. -/
structure Point3D (N : Type) where
  xy : Point2D N
  z : N
deriving DecidableEq, Repr

namespace Point2D

variable {N : Type}

/-- derive_more `Add` on `Point2D`: componentwise, each field using N's add. -/
def add (nadd : N → N → N) (a b : Point2D N) : Point2D N :=
  { x := nadd a.x b.x, y := nadd a.y b.y }

/-- derive_more `Sub` on `Point2D`: componentwise, each field using N's sub. -/
def sub (nsub : N → N → N) (a b : Point2D N) : Point2D N :=
  { x := nsub a.x b.x, y := nsub a.y b.y }

/-- derive_more `AddAssign` on `Point2D`: fieldwise `+=` using N's add-assign,
modelled as a pure function returning the receiver's new value. -/
def addAssign (naddAssign : N → N → N) (a b : Point2D N) : Point2D N :=
  { x := naddAssign a.x b.x, y := naddAssign a.y b.y }

/-- derive_more `SubAssign` on `Point2D`: fieldwise `-=` using N's sub-assign. -/
def subAssign (nsubAssign : N → N → N) (a b : Point2D N) : Point2D N :=
  { x := nsubAssign a.x b.x, y := nsubAssign a.y b.y }

/-- derive_more `Neg` on `Point2D`: componentwise negation. -/
def neg (nneg : N → N) (a : Point2D N) : Point2D N :=
  { x := nneg a.x, y := nneg a.y }

/-- derived `Default` on `Point2D`: each field is N's default value. -/
def defaultValue (ndefault : N) : Point2D N :=
  { x := ndefault, y := ndefault }

/-- `impl From<[N; 2]> for Point2D<N>`: `[x, y]` becomes `Self { x, y }`.
A Rust 2-array is modelled as a Lean pair. -/
def fromArray (a : N × N) : Point2D N :=
  { x := a.1, y := a.2 }

/-- `impl From<Point2D<N>> for [N; 2]`: destructures into `[x, y]`. -/
def toArray (p : Point2D N) : N × N :=
  (p.x, p.y)

/-- derive_more `From` on `Point2D` (its `#[derive(From)]`): construction
from the tuple `(x, y)` in field order. -/
def fromTuple (t : N × N) : Point2D N :=
  { x := t.1, y := t.2 }

/-- derive_more `Into` on `Point2D`: extraction to the tuple `(x, y)`. -/
def toTuple (p : Point2D N) : N × N :=
  (p.x, p.y)

/-- `impl_hypot_sq!(Point2D, x, y)`:
`let mut sum = self.x.checked_mul(&self.x)?;
 sum = sum.checked_add(&self.y.checked_mul(&self.y)?)?;
 Some(sum)`.
The `?` operator is Option bind; checked operations are explicit arguments. -/
def hypot_sq (cmul cadd : N → N → Option N) (p : Point2D N) : Option N :=
  (cmul p.x p.x).bind fun sum =>
    (cmul p.y p.y).bind fun ysq =>
      cadd sum ysq

/-- Instrumented variant of `Point2D.hypot_sq` that also counts how many
checked operations were executed, in the source's evaluation order:
1: `x.checked_mul(x)`, 2: `y.checked_mul(y)`, 3: `sum.checked_add(y*y)`. -/
def hypot_sq_count (cmul cadd : N → N → Option N) (p : Point2D N) :
    Option N × Nat :=
  match cmul p.x p.x with
  | none => (none, 1)
  | some sum =>
    match cmul p.y p.y with
    | none => (none, 2)
    | some ysq =>
      match cadd sum ysq with
      | none => (none, 3)
      | some s => (some s, 3)

/-- `impl_bounds!(Point2D)` min: `array::from_fn(|_| N::min_value()).into()` —
a 2-array holding N's minimum in every slot, converted through `From<[N; 2]>`. -/
def min_value (nmin : N) : Point2D N :=
  fromArray (nmin, nmin)

/-- `impl_bounds!(Point2D)` max: `array::from_fn(|_| N::max_value()).into()`. -/
def max_value (nmax : N) : Point2D N :=
  fromArray (nmax, nmax)

/-- `impl Display for Point2D`: `write!(f, "( {}, {} )", self.x, self.y)`;
each coordinate rendered with N's own textual representation. -/
def display (toStr : N → String) (p : Point2D N) : String :=
  "( " ++ toStr p.x ++ ", " ++ toStr p.y ++ " )"

end Point2D

namespace Point3D

variable {N : Type}

/-- Reading `x` on a `Point3D` goes through `Deref` to the embedded `xy`. -/
def x (p : Point3D N) : N := p.xy.x

/-- Reading `y` on a `Point3D` goes through `Deref` to the embedded `xy`. -/
def y (p : Point3D N) : N := p.xy.y

/-- Writing `p.x = v` on a `Point3D` via `DerefMut`: updates the x slot of
the embedded `xy` (there is no separate storage on `Point3D` itself). -/
def setXDirect (p : Point3D N) (v : N) : Point3D N :=
  { p with xy := { p.xy with x := v } }

/-- Writing through the embedded-2D-point path, `p.xy.x = v`: updates the
same slot of the field `xy`. -/
def setXEmbedded (p : Point3D N) (v : N) : Point3D N :=
  { p with xy := { p.xy with x := v } }

/-- derive_more `Add` on `Point3D`: field `xy` added with `Point2D`'s add,
field `z` with N's add. -/
def add (nadd : N → N → N) (a b : Point3D N) : Point3D N :=
  { xy := Point2D.add nadd a.xy b.xy, z := nadd a.z b.z }

/-- derive_more `Sub` on `Point3D`: fieldwise, via `Point2D`'s sub and N's sub. -/
def sub (nsub : N → N → N) (a b : Point3D N) : Point3D N :=
  { xy := Point2D.sub nsub a.xy b.xy, z := nsub a.z b.z }

/-- derive_more `AddAssign` on `Point3D`: fieldwise `+=`. -/
def addAssign (naddAssign : N → N → N) (a b : Point3D N) : Point3D N :=
  { xy := Point2D.addAssign naddAssign a.xy b.xy, z := naddAssign a.z b.z }

/-- derive_more `SubAssign` on `Point3D`: fieldwise `-=`. -/
def subAssign (nsubAssign : N → N → N) (a b : Point3D N) : Point3D N :=
  { xy := Point2D.subAssign nsubAssign a.xy b.xy, z := nsubAssign a.z b.z }

/-- derive_more `Neg` on `Point3D`: fieldwise negation. -/
def neg (nneg : N → N) (a : Point3D N) : Point3D N :=
  { xy := Point2D.neg nneg a.xy, z := nneg a.z }

/-- derived `Default` on `Point3D`: fieldwise default. -/
def defaultValue (ndefault : N) : Point3D N :=
  { xy := Point2D.defaultValue ndefault, z := ndefault }

/-- `impl From<[N; 3]> for Point3D<N>`: `Self { xy: [x, y].into(), z }`.
A Rust 3-array is modelled as a right-nested Lean triple. -/
def fromArray (a : N × N × N) : Point3D N :=
  { xy := Point2D.fromArray (a.1, a.2.1), z := a.2.2 }

/-- `impl From<Point3D<N>> for [N; 3]`: destructures into `[x, y, z]`. -/
def toArray (p : Point3D N) : N × N × N :=
  (p.xy.x, p.xy.y, p.z)

/-- `impl From<(N, N, N)> for Point3D<N>`: delegates to the array
constructor, `[x, y, z].into()`. -/
def fromTuple (t : N × N × N) : Point3D N :=
  fromArray (t.1, t.2.1, t.2.2)

/-- `impl From<Point3D<N>> for (N, N, N)`: goes through `[N; 3]` first. -/
def toTuple (p : Point3D N) : N × N × N :=
  ((toArray p).1, (toArray p).2.1, (toArray p).2.2)

/-- `impl_hypot_sq!(Point3D, x, y, z)`:
`let mut sum = self.x.checked_mul(&self.x)?;
 sum = sum.checked_add(&self.y.checked_mul(&self.y)?)?;
 sum = sum.checked_add(&self.z.checked_mul(&self.z)?)?;
 Some(sum)`, where `self.x`/`self.y` deref to the embedded `xy`. -/
def hypot_sq (cmul cadd : N → N → Option N) (p : Point3D N) : Option N :=
  (cmul p.xy.x p.xy.x).bind fun sum =>
    (cmul p.xy.y p.xy.y).bind fun ysq =>
      (cadd sum ysq).bind fun sum2 =>
        (cmul p.z p.z).bind fun zsq =>
          cadd sum2 zsq

/-- Instrumented variant of `Point3D.hypot_sq` counting executed checked
operations in source order: 1: `x*x`, 2: `y*y`, 3: `sum+y*y`, 4: `z*z`,
5: `sum+z*z`. -/
def hypot_sq_count (cmul cadd : N → N → Option N) (p : Point3D N) :
    Option N × Nat :=
  match cmul p.xy.x p.xy.x with
  | none => (none, 1)
  | some sum =>
    match cmul p.xy.y p.xy.y with
    | none => (none, 2)
    | some ysq =>
      match cadd sum ysq with
      | none => (none, 3)
      | some sum2 =>
        match cmul p.z p.z with
        | none => (none, 4)
        | some zsq =>
          match cadd sum2 zsq with
          | none => (none, 5)
          | some s => (some s, 5)

/-- `impl_bounds!(Point3D)` min: a 3-array of N's minimum, through `From<[N; 3]>`. -/
def min_value (nmin : N) : Point3D N :=
  fromArray (nmin, nmin, nmin)

/-- `impl_bounds!(Point3D)` max: a 3-array of N's maximum, through `From<[N; 3]>`. -/
def max_value (nmax : N) : Point3D N :=
  fromArray (nmax, nmax, nmax)

/-- `impl Display for Point3D`: `write!(f, "( {}, {}, {} )", self.x, self.y,
self.z)`, the first two coordinates read through `Deref`. -/
def display (toStr : N → String) (p : Point3D N) : String :=
  "( " ++ toStr p.xy.x ++ ", " ++ toStr p.xy.y ++ ", " ++ toStr p.z ++ " )"

end Point3D

/-- The minimum value of Rust's `i32`. -/
def i32min : Int := -2147483648

/-- The maximum value of Rust's `i32`. -/
def i32max : Int := 2147483647

/-- `i32::checked_mul`: the mathematical product when it is representable
in 32 bits, `None` on overflow. -/
def i32cmul (a b : Int) : Option Int :=
  if i32min ≤ a * b ∧ a * b ≤ i32max then some (a * b) else none

/-- `i32::checked_add`: the mathematical sum when representable, else `None`. -/
def i32cadd (a b : Int) : Option Int :=
  if i32min ≤ a + b ∧ a + b ≤ i32max then some (a + b) else none

/-- `i8::checked_mul`: the mathematical product when it fits in 8 signed
bits, `None` on overflow. -/
def i8cmul (a b : Int) : Option Int :=
  if -128 ≤ a * b ∧ a * b ≤ 127 then some (a * b) else none

/-- `i8::checked_add`: the mathematical sum when it fits, `None` on overflow. -/
def i8cadd (a b : Int) : Option Int :=
  if -128 ≤ a + b ∧ a + b ≤ 127 then some (a + b) else none

/-! Helper lemmas shared between the claim theorems. -/

/-- When `i32::checked_mul` succeeds it returns the mathematical product. -/
theorem i32cmul_sound (a b c : Int) (h : i32cmul a b = some c) : c = a * b := by
  unfold i32cmul at h
  split at h
  · exact (Option.some_inj.mp h).symm
  · exact absurd h (by simp)

/-- When `i32::checked_add` succeeds it returns the mathematical sum. -/
theorem i32cadd_sound (a b c : Int) (h : i32cadd a b = some c) : c = a + b := by
  unfold i32cadd at h
  split at h
  · exact (Option.some_inj.mp h).symm
  · exact absurd h (by simp)

/-- The instrumented 2D hypot-squared returns the same value as the plain one. -/
theorem hypot_sq2_count_fst {N : Type} (cmul cadd : N → N → Option N)
    (p : Point2D N) :
    (Point2D.hypot_sq_count cmul cadd p).1 = Point2D.hypot_sq cmul cadd p := by
  unfold Point2D.hypot_sq_count Point2D.hypot_sq
  rcases h1 : cmul p.x p.x with _ | s <;>
    simp only [h1, Option.none_bind, Option.some_bind]
  rcases h2 : cmul p.y p.y with _ | t <;>
    simp only [h2, Option.none_bind, Option.some_bind]
  rcases h3 : cadd s t with _ | u <;> simp only [h3]

/-- The instrumented 3D hypot-squared returns the same value as the plain one. -/
theorem hypot_sq3_count_fst {N : Type} (cmul cadd : N → N → Option N)
    (p : Point3D N) :
    (Point3D.hypot_sq_count cmul cadd p).1 = Point3D.hypot_sq cmul cadd p := by
  unfold Point3D.hypot_sq_count Point3D.hypot_sq
  rcases h1 : cmul p.xy.x p.xy.x with _ | s <;>
    simp only [h1, Option.none_bind, Option.some_bind]
  rcases h2 : cmul p.xy.y p.xy.y with _ | t <;>
    simp only [h2, Option.none_bind, Option.some_bind]
  rcases h3 : cadd s t with _ | u <;>
    simp only [h3, Option.none_bind, Option.some_bind]
  rcases h4 : cmul p.z p.z with _ | v <;>
    simp only [h4, Option.none_bind, Option.some_bind]
  rcases h5 : cadd u v with _ | w <;> simp only [h5]

/-- A `some` result of the 2D hypot-squared means every checked operation
succeeded and the result is the final checked sum. -/
theorem hypot_sq2_some_inv {N : Type} (cmul cadd : N → N → Option N)
    (p : Point2D N) (r : N) (h : Point2D.hypot_sq cmul cadd p = some r) :
    ∃ xx yy, cmul p.x p.x = some xx ∧ cmul p.y p.y = some yy ∧
      cadd xx yy = some r := by
  unfold Point2D.hypot_sq at h
  rcases h1 : cmul p.x p.x with _ | xx <;> rw [h1] at h
  · simp at h
  rcases h2 : cmul p.y p.y with _ | yy <;> rw [h2] at h
  · simp at h
  simp only [Option.some_bind] at h
  exact ⟨xx, yy, rfl, rfl, h⟩

/-- A `some` result of the 3D hypot-squared means every checked operation
succeeded and the result is the final checked sum. -/
theorem hypot_sq3_some_inv {N : Type} (cmul cadd : N → N → Option N)
    (p : Point3D N) (r : N) (h : Point3D.hypot_sq cmul cadd p = some r) :
    ∃ xx yy s2 zz, cmul p.xy.x p.xy.x = some xx ∧ cmul p.xy.y p.xy.y = some yy ∧
      cadd xx yy = some s2 ∧ cmul p.z p.z = some zz ∧ cadd s2 zz = some r := by
  unfold Point3D.hypot_sq at h
  rcases h1 : cmul p.xy.x p.xy.x with _ | xx <;> rw [h1] at h
  · simp at h
  rcases h2 : cmul p.xy.y p.xy.y with _ | yy <;> rw [h2] at h
  · simp at h
  simp only [Option.some_bind] at h
  rcases h3 : cadd xx yy with _ | s2 <;> rw [h3] at h
  · simp at h
  rcases h4 : cmul p.z p.z with _ | zz <;> rw [h4] at h
  · simp at h
  simp only [Option.some_bind] at h
  exact ⟨xx, yy, s2, zz, rfl, rfl, h3, rfl, h⟩

/-- If every checked operation in the 2D computation succeeds and checked
operations agree with the plain ones on success, the 2D hypot-squared is
`some` of the plain sum of squares. -/
theorem hypot_sq2_eq_of_success {N : Type} (mul nadd : N → N → N)
    (cmul cadd : N → N → Option N)
    (hmul : ∀ a b c, cmul a b = some c → c = mul a b)
    (hadd : ∀ a b c, cadd a b = some c → c = nadd a b)
    (p : Point2D N)
    (hx : cmul p.x p.x ≠ none)
    (hy : cmul p.y p.y ≠ none)
    (hs : cadd (mul p.x p.x) (mul p.y p.y) ≠ none) :
    Point2D.hypot_sq cmul cadd p = some (nadd (mul p.x p.x) (mul p.y p.y)) := by
  unfold Point2D.hypot_sq
  rcases h1 : cmul p.x p.x with _ | xx
  · exact absurd h1 hx
  rcases h2 : cmul p.y p.y with _ | yy
  · exact absurd h2 hy
  have exx := hmul _ _ _ h1
  have eyy := hmul _ _ _ h2
  subst exx
  subst eyy
  simp only [Option.some_bind]
  rcases h3 : cadd (mul p.x p.x) (mul p.y p.y) with _ | s
  · exact absurd h3 hs
  have es := hadd _ _ _ h3
  subst es
  rfl

/-- If every checked operation in the 3D computation succeeds and checked
operations agree with the plain ones on success, the 3D hypot-squared is
`some` of the plain sum of squares of the three coordinates. -/
theorem hypot_sq3_eq_of_success {N : Type} (mul nadd : N → N → N)
    (cmul cadd : N → N → Option N)
    (hmul : ∀ a b c, cmul a b = some c → c = mul a b)
    (hadd : ∀ a b c, cadd a b = some c → c = nadd a b)
    (p : Point3D N)
    (hx : cmul p.xy.x p.xy.x ≠ none)
    (hy : cmul p.xy.y p.xy.y ≠ none)
    (hz : cmul p.z p.z ≠ none)
    (hs1 : cadd (mul p.xy.x p.xy.x) (mul p.xy.y p.xy.y) ≠ none)
    (hs2 : cadd (nadd (mul p.xy.x p.xy.x) (mul p.xy.y p.xy.y)) (mul p.z p.z) ≠ none) :
    Point3D.hypot_sq cmul cadd p =
      some (nadd (nadd (mul p.xy.x p.xy.x) (mul p.xy.y p.xy.y)) (mul p.z p.z)) := by
  unfold Point3D.hypot_sq
  rcases h1 : cmul p.xy.x p.xy.x with _ | xx
  · exact absurd h1 hx
  rcases h2 : cmul p.xy.y p.xy.y with _ | yy
  · exact absurd h2 hy
  have exx := hmul _ _ _ h1
  have eyy := hmul _ _ _ h2
  subst exx
  subst eyy
  simp only [Option.some_bind]
  rcases h3 : cadd (mul p.xy.x p.xy.x) (mul p.xy.y p.xy.y) with _ | s
  · exact absurd h3 hs1
  have es := hadd _ _ _ h3
  subst es
  simp only [Option.some_bind]
  rcases h4 : cmul p.z p.z with _ | zz
  · exact absurd h4 hz
  have ezz := hmul _ _ _ h4
  subst ezz
  simp only [Option.some_bind]
  rcases h5 : cadd (nadd (mul p.xy.x p.xy.x) (mul p.xy.y p.xy.y)) (mul p.z p.z) with _ | w
  · exact absurd h5 hs2
  have ew := hadd _ _ _ h5
  subst ew
  rfl

/-- A `none` result of the 2D hypot-squared always comes from an identified
first failing checked operation: either the squaring of x fails, or it
succeeds and the squaring of y fails, or both succeed and the checked add of
the two squares fails. -/
theorem hypot_sq2_none_inv {N : Type} (cmul cadd : N → N → Option N)
    (p : Point2D N) (h : Point2D.hypot_sq cmul cadd p = none) :
    cmul p.x p.x = none
    ∨ (∃ s, cmul p.x p.x = some s ∧ cmul p.y p.y = none)
    ∨ (∃ s t, cmul p.x p.x = some s ∧ cmul p.y p.y = some t ∧
        cadd s t = none) := by
  unfold Point2D.hypot_sq at h
  rcases h1 : cmul p.x p.x with _ | s <;> rw [h1] at h
  · exact Or.inl rfl
  rcases h2 : cmul p.y p.y with _ | t <;> rw [h2] at h
  · exact Or.inr (Or.inl ⟨s, rfl, rfl⟩)
  simp only [Option.some_bind] at h
  exact Or.inr (Or.inr ⟨s, t, rfl, rfl, h⟩)

/-- A `none` result of the 3D hypot-squared always comes from an identified
first failing checked operation, one of the five in source order. -/
theorem hypot_sq3_none_inv {N : Type} (cmul cadd : N → N → Option N)
    (p : Point3D N) (h : Point3D.hypot_sq cmul cadd p = none) :
    cmul p.xy.x p.xy.x = none
    ∨ (∃ s, cmul p.xy.x p.xy.x = some s ∧ cmul p.xy.y p.xy.y = none)
    ∨ (∃ s t, cmul p.xy.x p.xy.x = some s ∧ cmul p.xy.y p.xy.y = some t ∧
        cadd s t = none)
    ∨ (∃ s t u, cmul p.xy.x p.xy.x = some s ∧ cmul p.xy.y p.xy.y = some t ∧
        cadd s t = some u ∧ cmul p.z p.z = none)
    ∨ (∃ s t u v, cmul p.xy.x p.xy.x = some s ∧ cmul p.xy.y p.xy.y = some t ∧
        cadd s t = some u ∧ cmul p.z p.z = some v ∧ cadd u v = none) := by
  unfold Point3D.hypot_sq at h
  rcases h1 : cmul p.xy.x p.xy.x with _ | s <;> rw [h1] at h
  · exact Or.inl rfl
  rcases h2 : cmul p.xy.y p.xy.y with _ | t <;> rw [h2] at h
  · exact Or.inr (Or.inl ⟨s, rfl, rfl⟩)
  simp only [Option.some_bind] at h
  rcases h3 : cadd s t with _ | u <;> rw [h3] at h
  · exact Or.inr (Or.inr (Or.inl ⟨s, t, rfl, rfl, h3⟩))
  rcases h4 : cmul p.z p.z with _ | v <;> rw [h4] at h
  · exact Or.inr (Or.inr (Or.inr (Or.inl ⟨s, t, u, rfl, rfl, h3, rfl⟩)))
  simp only [Option.some_bind] at h
  exact Or.inr (Or.inr (Or.inr (Or.inr ⟨s, t, u, v, rfl, rfl, h3, rfl, h⟩)))

/-- When the 2D hypot-squared succeeds, all three checked operations were
executed and the instrumented result carries the same value. -/
theorem hypot_sq2_count_of_some {N : Type} (cmul cadd : N → N → Option N)
    (p : Point2D N) (r : N) (h : Point2D.hypot_sq cmul cadd p = some r) :
    Point2D.hypot_sq_count cmul cadd p = (some r, 3) := by
  obtain ⟨xx, yy, h1, h2, h3⟩ := hypot_sq2_some_inv cmul cadd p r h
  simp [Point2D.hypot_sq_count, h1, h2, h3]

/-- When the 3D hypot-squared succeeds, all five checked operations were
executed and the instrumented result carries the same value. -/
theorem hypot_sq3_count_of_some {N : Type} (cmul cadd : N → N → Option N)
    (p : Point3D N) (r : N) (h : Point3D.hypot_sq cmul cadd p = some r) :
    Point3D.hypot_sq_count cmul cadd p = (some r, 5) := by
  obtain ⟨xx, yy, s2, zz, h1, h2, h3, h4, h5⟩ := hypot_sq3_some_inv cmul cadd p r h
  simp [Point3D.hypot_sq_count, h1, h2, h3, h4, h5]

/-! Claim theorems. -/

/-- Claim C1: for every Point2D (resp. Point3D) over a numeric type with
checked multiply and checked add, if no checked squaring of a coordinate and
no checked addition of the partial sums overflows, `hypot_sq()` returns
`Some` of the sum of the squares of all coordinates. -/
theorem C1_hypot_sq_sum_of_squares {N : Type} (mul nadd : N → N → N)
    (cmul cadd : N → N → Option N)
    (hmul : ∀ a b c, cmul a b = some c → c = mul a b)
    (hadd : ∀ a b c, cadd a b = some c → c = nadd a b)
    (p2 : Point2D N) (p3 : Point3D N)
    (h2x : cmul p2.x p2.x ≠ none)
    (h2y : cmul p2.y p2.y ≠ none)
    (h2s : cadd (mul p2.x p2.x) (mul p2.y p2.y) ≠ none)
    (h3x : cmul p3.xy.x p3.xy.x ≠ none)
    (h3y : cmul p3.xy.y p3.xy.y ≠ none)
    (h3z : cmul p3.z p3.z ≠ none)
    (h3s1 : cadd (mul p3.xy.x p3.xy.x) (mul p3.xy.y p3.xy.y) ≠ none)
    (h3s2 : cadd (nadd (mul p3.xy.x p3.xy.x) (mul p3.xy.y p3.xy.y)) (mul p3.z p3.z) ≠ none) :
    Point2D.hypot_sq cmul cadd p2 = some (nadd (mul p2.x p2.x) (mul p2.y p2.y)) ∧
    Point3D.hypot_sq cmul cadd p3 =
      some (nadd (nadd (mul p3.xy.x p3.xy.x) (mul p3.xy.y p3.xy.y)) (mul p3.z p3.z)) :=
  ⟨hypot_sq2_eq_of_success mul nadd cmul cadd hmul hadd p2 h2x h2y h2s,
   hypot_sq3_eq_of_success mul nadd cmul cadd hmul hadd p3 h3x h3y h3z h3s1 h3s2⟩

/-- Witness for C1 at the spec scenarios: over i32, a 2D point (3, 4) has
`hypot_sq() == Some(25)` and a 3D point (1, 2, 2) has `Some(9)`. -/
theorem C1_hypot_sq_sum_of_squares_witness :
    Point2D.hypot_sq i32cmul i32cadd (Point2D.mk 3 4) = some 25 ∧
    Point3D.hypot_sq i32cmul i32cadd (Point3D.mk (Point2D.mk 1 2) 2) = some 9 := by
  have h := C1_hypot_sq_sum_of_squares (fun m n : Int => m * n) (fun m n => m + n)
    i32cmul i32cadd i32cmul_sound i32cadd_sound
    (Point2D.mk 3 4) (Point3D.mk (Point2D.mk 1 2) 2)
    (by decide) (by decide) (by decide) (by decide) (by decide) (by decide)
    (by decide) (by decide)
  exact ⟨h.1.trans (by decide), h.2.trans (by decide)⟩

/-- Claim C2: when any checked operation in `hypot_sq` overflows, the result
is `None`, produced at the first overflowing operation with no further
checked operations executed (the instrumented count stops at the failing
operation's index), and a `some` result only arises when every checked
operation succeeded (no partial sum is ever returned). Conversely a `None`
result always stems from an identified first overflowing operation, and a
successful run executes exactly all checked operations (3 in 2D, 5 in 3D).
Concretely, over i8 a point with all coordinates at the maximum 127 yields
`None`. -/
theorem C2_hypot_sq_overflow_short_circuit {N : Type}
    (cmul cadd : N → N → Option N) (p2 : Point2D N) (p3 : Point3D N) :
    ((Point2D.hypot_sq_count cmul cadd p2).1 = Point2D.hypot_sq cmul cadd p2)
  ∧ ((Point3D.hypot_sq_count cmul cadd p3).1 = Point3D.hypot_sq cmul cadd p3)
  ∧ (cmul p2.x p2.x = none → Point2D.hypot_sq_count cmul cadd p2 = (none, 1))
  ∧ (∀ s, cmul p2.x p2.x = some s → cmul p2.y p2.y = none →
      Point2D.hypot_sq_count cmul cadd p2 = (none, 2))
  ∧ (∀ s t, cmul p2.x p2.x = some s → cmul p2.y p2.y = some t →
      cadd s t = none → Point2D.hypot_sq_count cmul cadd p2 = (none, 3))
  ∧ (∀ r, Point2D.hypot_sq cmul cadd p2 = some r →
      ∃ xx yy, cmul p2.x p2.x = some xx ∧ cmul p2.y p2.y = some yy ∧
        cadd xx yy = some r)
  ∧ (cmul p3.xy.x p3.xy.x = none → Point3D.hypot_sq_count cmul cadd p3 = (none, 1))
  ∧ (∀ s, cmul p3.xy.x p3.xy.x = some s → cmul p3.xy.y p3.xy.y = none →
      Point3D.hypot_sq_count cmul cadd p3 = (none, 2))
  ∧ (∀ s t, cmul p3.xy.x p3.xy.x = some s → cmul p3.xy.y p3.xy.y = some t →
      cadd s t = none → Point3D.hypot_sq_count cmul cadd p3 = (none, 3))
  ∧ (∀ s t u, cmul p3.xy.x p3.xy.x = some s → cmul p3.xy.y p3.xy.y = some t →
      cadd s t = some u → cmul p3.z p3.z = none →
      Point3D.hypot_sq_count cmul cadd p3 = (none, 4))
  ∧ (∀ s t u v, cmul p3.xy.x p3.xy.x = some s → cmul p3.xy.y p3.xy.y = some t →
      cadd s t = some u → cmul p3.z p3.z = some v → cadd u v = none →
      Point3D.hypot_sq_count cmul cadd p3 = (none, 5))
  ∧ (∀ r, Point3D.hypot_sq cmul cadd p3 = some r →
      ∃ xx yy s2 zz, cmul p3.xy.x p3.xy.x = some xx ∧
        cmul p3.xy.y p3.xy.y = some yy ∧ cadd xx yy = some s2 ∧
        cmul p3.z p3.z = some zz ∧ cadd s2 zz = some r)
  ∧ (Point2D.hypot_sq cmul cadd p2 = none →
      cmul p2.x p2.x = none
      ∨ (∃ s, cmul p2.x p2.x = some s ∧ cmul p2.y p2.y = none)
      ∨ (∃ s t, cmul p2.x p2.x = some s ∧ cmul p2.y p2.y = some t ∧
          cadd s t = none))
  ∧ (∀ r, Point2D.hypot_sq cmul cadd p2 = some r →
      Point2D.hypot_sq_count cmul cadd p2 = (some r, 3))
  ∧ (Point3D.hypot_sq cmul cadd p3 = none →
      cmul p3.xy.x p3.xy.x = none
      ∨ (∃ s, cmul p3.xy.x p3.xy.x = some s ∧ cmul p3.xy.y p3.xy.y = none)
      ∨ (∃ s t, cmul p3.xy.x p3.xy.x = some s ∧ cmul p3.xy.y p3.xy.y = some t ∧
          cadd s t = none)
      ∨ (∃ s t u, cmul p3.xy.x p3.xy.x = some s ∧ cmul p3.xy.y p3.xy.y = some t ∧
          cadd s t = some u ∧ cmul p3.z p3.z = none)
      ∨ (∃ s t u v, cmul p3.xy.x p3.xy.x = some s ∧ cmul p3.xy.y p3.xy.y = some t ∧
          cadd s t = some u ∧ cmul p3.z p3.z = some v ∧ cadd u v = none))
  ∧ (∀ r, Point3D.hypot_sq cmul cadd p3 = some r →
      Point3D.hypot_sq_count cmul cadd p3 = (some r, 5))
  ∧ Point2D.hypot_sq i8cmul i8cadd (Point2D.mk 127 127) = none
  ∧ Point3D.hypot_sq i8cmul i8cadd (Point3D.mk (Point2D.mk 127 127) 127) = none := by
  refine ⟨hypot_sq2_count_fst cmul cadd p2,
    hypot_sq3_count_fst cmul cadd p3, ?_, ?_, ?_,
    fun r h => hypot_sq2_some_inv cmul cadd p2 r h, ?_, ?_, ?_, ?_, ?_,
    fun r h => hypot_sq3_some_inv cmul cadd p3 r h,
    fun h => hypot_sq2_none_inv cmul cadd p2 h,
    fun r h => hypot_sq2_count_of_some cmul cadd p2 r h,
    fun h => hypot_sq3_none_inv cmul cadd p3 h,
    fun r h => hypot_sq3_count_of_some cmul cadd p3 r h,
    by decide, by decide⟩
  · intro h
    simp [Point2D.hypot_sq_count, h]
  · intro s h1 h2
    simp [Point2D.hypot_sq_count, h1, h2]
  · intro s t h1 h2 h3
    simp [Point2D.hypot_sq_count, h1, h2, h3]
  · intro h
    simp [Point3D.hypot_sq_count, h]
  · intro s h1 h2
    simp [Point3D.hypot_sq_count, h1, h2]
  · intro s t h1 h2 h3
    simp [Point3D.hypot_sq_count, h1, h2, h3]
  · intro s t u h1 h2 h3 h4
    simp [Point3D.hypot_sq_count, h1, h2, h3, h4]
  · intro s t u v h1 h2 h3 h4 h5
    simp [Point3D.hypot_sq_count, h1, h2, h3, h4, h5]

/-- Witness for C2: over i8 at the maximum value 127, the very first checked
squaring overflows, the instrumented computation stops after that single
operation in 2D and in 3D alike, and `hypot_sq` is `None` for both points. -/
theorem C2_hypot_sq_overflow_short_circuit_witness :
    Point2D.hypot_sq_count i8cmul i8cadd (Point2D.mk 127 127) = (none, 1)
  ∧ Point3D.hypot_sq_count i8cmul i8cadd
      (Point3D.mk (Point2D.mk 127 127) 127) = (none, 1)
  ∧ Point2D.hypot_sq i8cmul i8cadd (Point2D.mk 127 127) = none
  ∧ Point3D.hypot_sq i8cmul i8cadd (Point3D.mk (Point2D.mk 127 127) 127) = none := by
  obtain ⟨c1, c2, c3, c4, c5, c6, c7, c8, c9, c10, c11, c12, c13, c14,
    c15, c16, c17, c18⟩ :=
    C2_hypot_sq_overflow_short_circuit i8cmul i8cadd (Point2D.mk 127 127)
      (Point3D.mk (Point2D.mk 127 127) 127)
  exact ⟨c3 (by decide), c7 (by decide), c17, c18⟩

/-- Claim C3: on a `Point3D` the coordinates x and y are the fields of the
embedded `Point2D` (field `xy`): both read paths return the same value;
writing through the embedded-2D-point path is observed by a direct read and
writing through the direct (DerefMut) path is observed through `xy`; the
other coordinates are untouched; a `Point3D` built from (1, -2, 3) reads
(1, -2) on its first two coordinates. -/
theorem C3_point3d_transparent_delegation {N : Type} (p : Point3D N) (v : N) :
    (Point3D.x p = p.xy.x)
  ∧ (Point3D.y p = p.xy.y)
  ∧ (Point3D.setXDirect p v = Point3D.setXEmbedded p v)
  ∧ (Point3D.x (Point3D.setXEmbedded p v) = v)
  ∧ ((Point3D.setXDirect p v).xy.x = v)
  ∧ ((Point3D.setXDirect p v).xy.y = p.xy.y)
  ∧ ((Point3D.setXDirect p v).z = p.z)
  ∧ ((Point3D.setXEmbedded p v).xy.y = p.xy.y)
  ∧ ((Point3D.setXEmbedded p v).z = p.z)
  ∧ (Point3D.x (Point3D.fromTuple ((1 : Int), -2, 3)) = 1)
  ∧ (Point3D.y (Point3D.fromTuple ((1 : Int), -2, 3)) = -2) :=
  ⟨rfl, rfl, rfl, rfl, rfl, rfl, rfl, rfl, rfl, rfl, rfl⟩

/-- Claim C4: converting a point to an array or a tuple and back yields the
same point, and converting an array or tuple to a point and back yields the
same array or tuple, for both `Point2D` and `Point3D`. -/
theorem C4_conversions_round_trip {N : Type} (p : Point2D N) (q : Point3D N)
    (a : N × N) (t : N × N) (a3 : N × N × N) (t3 : N × N × N) :
    (Point2D.fromArray (Point2D.toArray p) = p)
  ∧ (Point2D.fromTuple (Point2D.toTuple p) = p)
  ∧ (Point3D.fromArray (Point3D.toArray q) = q)
  ∧ (Point3D.fromTuple (Point3D.toTuple q) = q)
  ∧ (Point2D.toArray (Point2D.fromArray a) = a)
  ∧ (Point2D.toTuple (Point2D.fromTuple t) = t)
  ∧ (Point3D.toArray (Point3D.fromArray a3) = a3)
  ∧ (Point3D.toTuple (Point3D.fromTuple t3) = t3) :=
  ⟨rfl, rfl, rfl, rfl, rfl, rfl, rfl, rfl⟩

/-- Claim C5: `a + b` and `a - b` are the componentwise sum and difference
for both point types, and `Point2D::from([3,4]) - Point2D::from([1,2])`
equals `Point2D::from([2,2])` over the integers. -/
theorem C5_add_sub_componentwise {N : Type} (nadd nsub : N → N → N)
    (a b : Point2D N) (c d : Point3D N) :
    (Point2D.add nadd a b = Point2D.mk (nadd a.x b.x) (nadd a.y b.y))
  ∧ (Point2D.sub nsub a b = Point2D.mk (nsub a.x b.x) (nsub a.y b.y))
  ∧ (Point3D.add nadd c d =
      Point3D.mk (Point2D.mk (nadd c.xy.x d.xy.x) (nadd c.xy.y d.xy.y)) (nadd c.z d.z))
  ∧ (Point3D.sub nsub c d =
      Point3D.mk (Point2D.mk (nsub c.xy.x d.xy.x) (nsub c.xy.y d.xy.y)) (nsub c.z d.z))
  ∧ (Point2D.sub (fun m n : Int => m - n)
      (Point2D.fromArray (3, 4)) (Point2D.fromArray (1, 2)) = Point2D.fromArray (2, 2)) :=
  ⟨rfl, rfl, rfl, rfl, by decide⟩

/-- Claim C6: `min_value()` (resp. `max_value()`) is the point whose every
coordinate is N's minimum (resp. maximum) representable value, for both
point types; for i32, `Point2D::min_value() == Point2D::from([i32::MIN, i32::MIN])`. -/
theorem C6_bounds_componentwise {N : Type} (nmin nmax : N) :
    (Point2D.min_value nmin = Point2D.mk nmin nmin)
  ∧ (Point2D.max_value nmax = Point2D.mk nmax nmax)
  ∧ (Point3D.min_value nmin = Point3D.mk (Point2D.mk nmin nmin) nmin)
  ∧ (Point3D.max_value nmax = Point3D.mk (Point2D.mk nmax nmax) nmax)
  ∧ (Point2D.min_value i32min = Point2D.fromArray (i32min, i32min))
  ∧ (Point2D.min_value i32min = Point2D.fromArray ((-2147483648 : Int), -2147483648)) :=
  ⟨rfl, rfl, rfl, rfl, rfl, by decide⟩

/-- Claim C7: Display renders `( x, y )` for a `Point2D` and `( x, y, z )`
for a `Point3D`, each coordinate in its own textual representation,
comma-and-space separated, with a space after the opening parenthesis and
before the closing one; `Point2D::from([1, -2])` renders as "( 1, -2 )" and
`Point3D::from([1, -2, 0])` as "( 1, -2, 0 )". -/
theorem C7_display_format {N : Type} (toStr : N → String)
    (p : Point2D N) (q : Point3D N) :
    (Point2D.display toStr p = "( " ++ toStr p.x ++ ", " ++ toStr p.y ++ " )")
  ∧ (Point3D.display toStr q =
      "( " ++ toStr q.xy.x ++ ", " ++ toStr q.xy.y ++ ", " ++ toStr q.z ++ " )")
  ∧ (Point2D.display toString (Point2D.fromArray ((1 : Int), -2)) = "( 1, -2 )")
  ∧ (Point3D.display toString (Point3D.fromArray ((1 : Int), -2, 0)) = "( 1, -2, 0 )") :=
  ⟨rfl, rfl, by decide, by decide⟩

/-- Claim C8: negation is componentwise for both point types, and whenever
N's default is its additive identity (`n + (-n) = default`), the sum of a
point and its negation is the default point. -/
theorem C8_neg_additive_inverse {N : Type} (nadd : N → N → N) (nneg : N → N)
    (ndefault : N) (hinv : ∀ n, nadd n (nneg n) = ndefault)
    (a : Point2D N) (b : Point3D N) :
    (Point2D.neg nneg a = Point2D.mk (nneg a.x) (nneg a.y))
  ∧ (Point3D.neg nneg b = Point3D.mk (Point2D.mk (nneg b.xy.x) (nneg b.xy.y)) (nneg b.z))
  ∧ (Point2D.add nadd a (Point2D.neg nneg a) = Point2D.defaultValue ndefault)
  ∧ (Point3D.add nadd b (Point3D.neg nneg b) = Point3D.defaultValue ndefault) := by
  refine ⟨rfl, rfl, ?_, ?_⟩
  · simp [Point2D.add, Point2D.neg, Point2D.defaultValue, hinv]
  · simp [Point3D.add, Point3D.neg, Point3D.defaultValue,
      Point2D.add, Point2D.neg, Point2D.defaultValue, hinv]

/-- Witness for C8 over the integers with default 0: a concrete point plus
its negation is the all-zero default point, in 2D and 3D. -/
theorem C8_neg_additive_inverse_witness :
    (Point2D.add (fun m n : Int => m + n) (Point2D.mk 5 (-7))
      (Point2D.neg (fun n => -n) (Point2D.mk 5 (-7))) = Point2D.defaultValue 0)
  ∧ (Point3D.add (fun m n : Int => m + n) (Point3D.mk (Point2D.mk 1 (-2)) 3)
      (Point3D.neg (fun n => -n) (Point3D.mk (Point2D.mk 1 (-2)) 3))
      = Point3D.defaultValue 0) := by
  have h := C8_neg_additive_inverse (fun m n : Int => m + n) (fun n => -n) 0
    (fun n => by show n + -n = 0; omega)
    (Point2D.mk 5 (-7)) (Point3D.mk (Point2D.mk 1 (-2)) 3)
  exact ⟨h.2.2.1, h.2.2.2⟩

/-- Claim C9: whenever N's compound-assignment operations agree with its
binary addition and subtraction, the derived `+=`/`-=` on both point types
leave the receiver equal to the result of the corresponding binary `+`/`-`. -/
theorem C9_assign_agrees_with_binary {N : Type}
    (nadd nsub naddAssign nsubAssign : N → N → N)
    (ha : ∀ m n, naddAssign m n = nadd m n)
    (hs : ∀ m n, nsubAssign m n = nsub m n)
    (a b : Point2D N) (c d : Point3D N) :
    (Point2D.addAssign naddAssign a b = Point2D.add nadd a b)
  ∧ (Point2D.subAssign nsubAssign a b = Point2D.sub nsub a b)
  ∧ (Point3D.addAssign naddAssign c d = Point3D.add nadd c d)
  ∧ (Point3D.subAssign nsubAssign c d = Point3D.sub nsub c d) := by
  refine ⟨?_, ?_, ?_, ?_⟩ <;>
    simp [Point2D.addAssign, Point2D.add, Point2D.subAssign, Point2D.sub,
      Point3D.addAssign, Point3D.add, Point3D.subAssign, Point3D.sub, ha, hs]

/-- Witness for C9 over the integers, where `+=` and `+` are the same
operation on N: the point level variants coincide on concrete points. -/
theorem C9_assign_agrees_with_binary_witness :
    (Point2D.addAssign (fun m n : Int => m + n) (Point2D.mk 1 2) (Point2D.mk 3 4)
      = Point2D.add (fun m n : Int => m + n) (Point2D.mk 1 2) (Point2D.mk 3 4))
  ∧ (Point3D.subAssign (fun m n : Int => m - n)
      (Point3D.mk (Point2D.mk 3 4) 5) (Point3D.mk (Point2D.mk 1 2) 3)
      = Point3D.sub (fun m n : Int => m - n)
        (Point3D.mk (Point2D.mk 3 4) 5) (Point3D.mk (Point2D.mk 1 2) 3)) := by
  have h := C9_assign_agrees_with_binary (fun m n : Int => m + n)
    (fun m n => m - n) (fun m n => m + n) (fun m n => m - n)
    (fun m n => rfl) (fun m n => rfl)
    (Point2D.mk 1 2) (Point2D.mk 3 4)
    (Point3D.mk (Point2D.mk 3 4) 5) (Point3D.mk (Point2D.mk 1 2) 3)
  exact ⟨h.1, h.2.2.2⟩

/-- Claim C10: constructing a point from a tuple equals constructing it from
the corresponding array, for all coordinates, in 2D and in 3D (the 3D tuple
constructor delegates to the array constructor). -/
theorem C10_tuple_from_agrees_with_array_from {N : Type} (a b c : N) :
    (Point2D.fromTuple (a, b) = Point2D.fromArray (a, b))
  ∧ (Point3D.fromTuple (a, b, c) = Point3D.fromArray (a, b, c)) :=
  ⟨rfl, rfl⟩
